import Mathlib

/-!
Verification of the SSW shipment-tracking sync pipeline (`src/main.py`).

The development shallowly embeds the pure algorithmic content of the
source: the event extractor (regex-based field extraction from the
scraped `tdb` paragraph texts), the occurrence-code matcher, the
status mapper, the per-shipment task wrappers and the run orchestrator
`sync_ssw_tracking`.  HTTP traffic is modelled by explicit outcome
values handed to the functions that the source wraps in `try/except`;
BeautifulSoup parsing is abstracted to the ordered list of paragraph
texts it yields.  Character-level operations (`str.lower`, `str.upper`,
`\w`, `\s`) are modelled over ASCII plus the Latin-1 letters that the
carrier's Portuguese catalog uses.
-/

namespace ShipTracker

/-- Python `\s` / `str.strip` whitespace, ASCII plus the Latin-1 members. -/
def isPySpace (c : Char) : Bool :=
  c == ' ' || c == '\t' || c == '\n' || c == '\r' || c == '\x0b' || c == '\x0c' ||
  c == '\x85' || c == '\xa0'

/-- ASCII decimal digit, Python `\d`. -/
def isDigitCh (c : Char) : Bool :=
  '0' ≤ c && c ≤ '9'

/-- Python `str.lower` on one character, for ASCII and Latin-1 letters. -/
def pyLowerChar (c : Char) : Char :=
  if 'A' ≤ c ∧ c ≤ 'Z' then Char.ofNat (c.toNat + 32)
  else if 0xC0 ≤ c.toNat ∧ c.toNat ≤ 0xDE ∧ c.toNat ≠ 0xD7 then Char.ofNat (c.toNat + 32)
  else c

/-- Python `str.upper` on one character, for ASCII and Latin-1 letters. -/
def pyUpperChar (c : Char) : Char :=
  if 'a' ≤ c ∧ c ≤ 'z' then Char.ofNat (c.toNat - 32)
  else if 0xE0 ≤ c.toNat ∧ c.toNat ≤ 0xFE ∧ c.toNat ≠ 0xF7 then Char.ofNat (c.toNat - 32)
  else c

/-- Python `str.lower`. -/
def pyLower (s : String) : String := ⟨s.data.map pyLowerChar⟩

/-- Python `str.upper`. -/
def pyUpperStr (s : String) : String := ⟨s.data.map pyUpperChar⟩

/-- Python `\w` word character (ASCII alphanumerics, underscore, Latin-1 letters). -/
def isWordChar (c : Char) : Bool :=
  isDigitCh c || ('a' ≤ c && c ≤ 'z') || ('A' ≤ c && c ≤ 'Z') || c == '_' ||
  (0xC0 ≤ c.toNat && c.toNat ≤ 0xFF && c.toNat ≠ 0xD7 && c.toNat ≠ 0xF7)

/-- Python `str.strip`: drop leading and trailing whitespace. -/
def trimChars (l : List Char) : List Char :=
  ((l.dropWhile isPySpace).reverse.dropWhile isPySpace).reverse

/-- Does `needle` occur at the front of `hay`? -/
def isPrefixL : List Char → List Char → Bool
  | [], _ => true
  | _ :: _, [] => false
  | a :: as, b :: bs => a == b && isPrefixL as bs

/-- Python `needle in hay` substring test. -/
def containsL (hay needle : List Char) : Bool :=
  match hay with
  | [] => isPrefixL needle []
  | c :: t => isPrefixL needle (c :: t) || containsL t needle

/-- Does `\d{2}/\d{2}/\d{2}` match at the front of the character list? -/
def dateAt : List Char → Bool
  | d1 :: d2 :: s1 :: d3 :: d4 :: s2 :: d5 :: d6 :: _ =>
    isDigitCh d1 && isDigitCh d2 && s1 == '/' && isDigitCh d3 && isDigitCh d4 &&
    s2 == '/' && isDigitCh d5 && isDigitCh d6
  | _ => false

/-- Does `\d{2}:\d{2}` match at the front of the character list? -/
def timeAt : List Char → Bool
  | d1 :: d2 :: s1 :: d3 :: d4 :: _ =>
    isDigitCh d1 && isDigitCh d2 && s1 == ':' && isDigitCh d3 && isDigitCh d4
  | _ => false

/-- Does `\d{4}` match at the front of the character list? -/
def fourAt : List Char → Bool
  | d1 :: d2 :: d3 :: d4 :: _ =>
    isDigitCh d1 && isDigitCh d2 && isDigitCh d3 && isDigitCh d4
  | _ => false

/-- The date group captured at this position, when the pattern matches here. -/
def dateHere (l : List Char) : Option String :=
  if dateAt l then some ⟨l.take 8⟩ else none

/-- The time group captured at this position, when the pattern matches here. -/
def timeHere (l : List Char) : Option String :=
  if timeAt l then some ⟨l.take 5⟩ else none

/-- The 4-digit group captured at this position, when the pattern matches here. -/
def fourHere (l : List Char) : Option String :=
  if fourAt l then some ⟨l.take 4⟩ else none

/-- `re.search`: first position (left to right) where the pattern captures. -/
def scanFirst (p : List Char → Option String) : List Char → Option String
  | [] => p []
  | c :: t =>
    match p (c :: t) with
    | some r => some r
    | none => scanFirst p t

/-- `re.search(r"(\d{2}/\d{2}/\d{2})", s)`. -/
def findDate (l : List Char) : Option String := scanFirst dateHere l

/-- `re.search(r"(\d{2}:\d{2})", s)`. -/
def findTime (l : List Char) : Option String := scanFirst timeHere l

/-- `re.search(r"(\d{4})", s)`. -/
def findFour (l : List Char) : Option String := scanFirst fourHere l

/-! ### Location extraction

`re.match(r"^(.+?)(?=\d{2}/\d{2}/\d{2})", location_datetime)`: the lazy
`.+?` consumes the shortest non-empty newline-free prefix followed by a
position where the date pattern matches. -/

/-- Walk the fragment from position `pre.length ≥ 1`; stop at the first
position where the date pattern matches (yielding the consumed prefix), or
fail on a newline / end of input. -/
def locAux (pre : List Char) : List Char → Option (List Char)
  | [] => none
  | c :: cs =>
    if dateAt (c :: cs) then some pre.reverse
    else if c = '\n' then none
    else locAux (c :: pre) cs

/-- The raw group captured by `^(.+?)(?=\d{2}/\d{2}/\d{2})`, if the regex matches. -/
def extractLocRaw : List Char → Option (List Char)
  | [] => none
  | c :: cs => if c = '\n' then none else locAux [c] cs

/-- `location.strip()` followed by `re.sub(r'\s*/\s*$', '', location).strip()`:
after stripping, the suffix pattern matches exactly when the last character is
a slash, removing it together with the whitespace before it. -/
def cleanLoc (l : List Char) : List Char :=
  let t := trimChars l
  let t2 := match t.reverse with
    | '/' :: rest => (rest.dropWhile isPySpace).reverse
    | _ => t
  trimChars t2

/-- The `location` field computed by the source for one combined
location+datetime fragment. -/
def extractLocation (s : String) : Option String :=
  (extractLocRaw s.data).map (fun l => (⟨cleanLoc l⟩ : String))

/-! ### Timestamp parsing

`datetime.strptime(f"{date_str} {time_str}", "%d/%m/%y %H:%M")`: the two
groups already have shape `DD/MM/YY` and `HH:MM`, so `strptime` fails exactly
when the fields are out of calendar range. -/

/-- Python's `%y` pivot: 00–68 mean 20xx, 69–99 mean 19xx. -/
def pivotYear (yy : Nat) : Nat := if yy ≤ 68 then 2000 + yy else 1900 + yy

/-- Gregorian leap year. -/
def isLeap (y : Nat) : Bool := (y % 4 == 0 && y % 100 != 0) || y % 400 == 0

/-- Days in a month of a given year. -/
def daysInMonth (m y : Nat) : Nat :=
  if m = 2 then (if isLeap y then 29 else 28)
  else if m = 4 ∨ m = 6 ∨ m = 9 ∨ m = 11 then 30
  else 31

/-- A parsed local timestamp (`datetime` without a timezone). -/
structure PyDateTime where
  year : Nat
  month : Nat
  day : Nat
  hour : Nat
  minute : Nat
deriving DecidableEq, Repr

/-- Numeric value of a decimal digit character. -/
def digitVal (c : Char) : Nat := c.toNat - 48

/-- Two-digit decimal field. -/
def parse2 (a b : Char) : Nat := 10 * digitVal a + digitVal b

/-- `datetime.strptime(f"{date_str} {time_str}", "%d/%m/%y %H:%M")`, on the
regex-captured groups; `none` models the `ValueError` raised on an
out-of-range calendar field. -/
def strptimeDdMmYy (dateS timeS : String) : Option PyDateTime :=
  match dateS.data, timeS.data with
  | [d1, d2, _, m1, m2, _, y1, y2], [h1, h2, _, n1, n2] =>
    let day := parse2 d1 d2
    let mon := parse2 m1 m2
    let yr := pivotYear (parse2 y1 y2)
    let hr := parse2 h1 h2
    let mins := parse2 n1 n2
    if 1 ≤ mon ∧ mon ≤ 12 ∧ 1 ≤ day ∧ day ≤ daysInMonth mon yr ∧ hr ≤ 23 ∧ mins ≤ 59 then
      some ⟨yr, mon, day, hr, mins⟩
    else none
  | _, _ => none

/-! ### Status-text cleaning

`re.sub(r'\s*\(.*?\)\s*\.?$', '', status_text).strip()`: remove, from the
leftmost position where it is possible, a run of whitespace, a parenthesised
chunk (whose content cannot contain a newline, since `.` does not match one),
optional whitespace and an optional final period, all anchored at the end. -/

/-- `\s*\.?$`: only whitespace, optionally followed by one final period. -/
def tailOk (l : List Char) : Bool :=
  let d := l.dropWhile isPySpace
  d == [] || d == ['.']

/-- Scan for a closing parenthesis whose remainder matches `\s*\.?$`; the
content skipped over may not contain a newline. -/
def closeScan : List Char → Bool
  | [] => false
  | c :: rest => (c == ')' && tailOk rest) || (c != '\n' && closeScan rest)

/-- Does the whole suffix match `\s*\(.*?\)\s*\.?$`? -/
def parenSufMatch (l : List Char) : Bool :=
  match l.dropWhile isPySpace with
  | '(' :: rest => closeScan rest
  | _ => false

/-- Truncate at the leftmost position whose suffix matches the annotation
pattern (the behaviour of `re.sub` with an end-anchored pattern). -/
def rtpAux : List Char → List Char
  | [] => []
  | c :: rest => if parenSufMatch (c :: rest) then [] else c :: rtpAux rest

/-- `re.sub(r'\s*\(.*?\)\s*\.?$', '', status_text).strip()`. -/
def cleanStatusText (s : String) : String :=
  ⟨trimChars (rtpAux s.data)⟩

/-! ### Tokenization: `re.findall(r'\b\w+\b', text)` -/

/-- Collect the maximal runs of word characters, in order (`cur` is the
reversed run in progress). -/
def tokenizeAux (cur : List Char) : List Char → List String
  | [] => if cur.isEmpty then [] else [⟨cur.reverse⟩]
  | c :: t =>
    if isWordChar c then tokenizeAux (c :: cur) t
    else if cur.isEmpty then tokenizeAux [] t
    else (⟨cur.reverse⟩ : String) :: tokenizeAux [] t

/-- `re.findall(r'\b\w+\b', s)`. -/
def tokensOf (l : List Char) : List String := tokenizeAux [] l

/-- The fixed uppercase stop-word set of the matcher. -/
def ignoreWords : List String :=
  ["DE", "DA", "DO", "PARA", "COM", "SEM", "POR", "AO", "A", "O", "E"]

/-- `set(re.findall(r'\b\w+\b', s)) - ignore_words`, as a duplicate-free list. -/
def keywordsOf (s : String) : List String :=
  ((tokensOf s.data).dedup).filter (fun w => !(ignoreWords.contains w))

/-- Sum of the lengths of a list of words. -/
def sumLen (ws : List String) : Nat := ws.foldr (fun w n => w.length + n) 0

/-! ### The occurrence-code catalog and the matcher -/

/-- One catalog entry as served by `/tracking-updates/occurrence-codes`; the
classification axes are read with `.get(..., "")`, so they may be absent. -/
structure OccurrenceCode where
  code : String
  description : String
  type : Option String := none
  process : Option String := none
deriving DecidableEq, Repr

/-- The stop-word-filtered word set of the uppercased description. -/
def descKeywords (c : OccurrenceCode) : List String :=
  keywordsOf (pyUpperStr c.description)

/-- The word-overlap score: summed lengths of the keywords the cleaned status
text shares with the description. -/
def overlapScore (statusKW : List String) (c : OccurrenceCode) : Nat :=
  sumLen (statusKW.filter (fun w => (descKeywords c).contains w))

/-- The score the source assigns to one catalog entry against the cleaned,
uppercased status text: exact containment in either direction is worth
100 × the length of the contained string, otherwise the word overlap counts. -/
def matchScore (statusUpper : String) (statusKW : List String) (c : OccurrenceCode) : Nat :=
  let descU := pyUpperStr c.description
  if containsL statusUpper.data descU.data then 100 * descU.length
  else if containsL descU.data statusUpper.data then 100 * statusUpper.length
  else overlapScore statusKW c

/-- Stable insertion for the length-descending sort of
`sorted(occurrence_codes, key=lambda x: len(x["description"]), reverse=True)`. -/
def insertByLen (c : OccurrenceCode) : List OccurrenceCode → List OccurrenceCode
  | [] => [c]
  | x :: xs =>
    if x.description.length ≤ c.description.length then c :: x :: xs
    else x :: insertByLen c xs

/-- The catalog sorted by description length, descending, stably. -/
def sortByDescLen : List OccurrenceCode → List OccurrenceCode
  | [] => []
  | c :: cs => insertByLen c (sortByDescLen cs)

/-- One step of the selection loop: a candidate replaces the best seen so far
only with a strictly higher score. -/
def bestStep (up : String) (kw : List String) (acc : Option OccurrenceCode × Nat)
    (c : OccurrenceCode) : Option OccurrenceCode × Nat :=
  let s := matchScore up kw c
  if acc.2 < s then (some c, s) else acc

/-- The cleaned, uppercased status text fed to the matcher. -/
def cleanUpper (txt : String) : String := pyUpperStr (cleanStatusText txt)

/-- The matcher of `scrape_ssw_tracking`: best entry (with its score) over the
length-sorted catalog, starting from no match and score 0. -/
def findBestMatch (codes : List OccurrenceCode) (txt : String) :
    Option OccurrenceCode × Nat :=
  (sortByDescLen codes).foldl
    (bestStep (cleanUpper txt) (keywordsOf (cleanUpper txt))) (none, 0)

/-! ### The status mapper -/

/-- `occurrence_code.get("type", "").lower()`. -/
def typeLower (c : OccurrenceCode) : String := pyLower (c.type.getD "")

/-- `occurrence_code.get("process", "").lower()`. -/
def procLower (c : OccurrenceCode) : String := pyLower (c.process.getD "")

/-- The `if/elif` chain mapping the lowered classification axes to the
canonical status. -/
def mapStatusTP (t p : String) : String :=
  if p = "entrega" then "delivered"
  else if p = "finalizadora" then "delivered"
  else if p = "devolução" then "returned"
  else if t = "baixa" then "cancelled"
  else if t = "préentrega" then "out_for_delivery"
  else if p = "reentrega" then "failed_delivery"
  else if p = "agendamento" then "awaiting_pickup"
  else if containsL t.data "pendência".data then "held"
  else if p = "operacional" ∨ p = "coleta" ∨ p = "geral" then "in_transit"
  else if t = "informativa" then "in_transit"
  else "in_transit"

/-- The status mapper: `in_transit` when no code matched (`if occurrence_code:`
over the empty dict), otherwise the rule chain on the lowered axes. -/
def mapStatus : Option OccurrenceCode → String
  | none => "in_transit"
  | some c => mapStatusTP (typeLower c) (procLower c)

/-! ### The event extractor -/

/-- One normalized tracking event as appended to `events`. -/
structure TrackingEvent where
  occurrence_code : String
  status : String
  description : String
  location : Option String
  unit : Option String
  occurred_at : PyDateTime
deriving DecidableEq, Repr

/-- `range(0, len(tracking_paragraphs), 3)` with the `i + 2 < len` guard:
consecutive complete triples; a trailing group of one or two fragments is
dropped. -/
def groupTriples : List String → List (String × String × String)
  | a :: b :: c :: rest => (a, b, c) :: groupTriples rest
  | _ => []

/-- What the loop body does with one complete triple. -/
inductive TripleOutcome where
  /-- The date or time pattern is missing: the event is silently skipped. -/
  | noStamp : TripleOutcome
  /-- Both patterns matched but `strptime` raises (invalid calendar fields). -/
  | badStamp : TripleOutcome
  /-- A normalized event is appended. -/
  | ev : TrackingEvent → TripleOutcome
deriving DecidableEq

/-- The loop body of `scrape_ssw_tracking` on one `(unit, location+datetime,
status)` triple: field extraction, timestamp parse, matching and mapping. -/
def processTriple (codes : List OccurrenceCode)
    (unit_text location_datetime status_text : String) : TripleOutcome :=
  let unit := findFour unit_text.data
  let location := extractLocation location_datetime
  match findDate location_datetime.data, findTime location_datetime.data with
  | some d, some tm =>
    match strptimeDdMmYy d tm with
    | none => .badStamp
    | some dt =>
      let oc := (findBestMatch codes status_text).1
      .ev { occurrence_code := (oc.map (fun c => c.code)).getD ""
            status := mapStatus oc
            description := (oc.map (fun c => c.description)).getD ""
            location := location
            unit := unit
            occurred_at := dt }
  | _, _ => .noStamp

/-- The extraction loop over the grouped triples.  A `badStamp` triple models
the uncaught `ValueError` from `strptime`: it aborts the whole loop, so the
result is an error rather than a list. -/
def extractEvents (codes : List OccurrenceCode) :
    List (String × String × String) → Except Unit (List TrackingEvent)
  | [] => .ok []
  | t :: ts =>
    match processTriple codes t.1 t.2.1 t.2.2 with
    | .noStamp => extractEvents codes ts
    | .badStamp => .error ()
    | .ev e =>
      match extractEvents codes ts with
      | .ok es => .ok (e :: es)
      | .error u => .error u

/-- The payload assembled for one shipment (`ShipmentUpdate`). -/
structure ShipmentUpdate where
  tracking_code : Option String
  invoice_number : String
  document : String
  carrier : String
  current_status : String
  events : List TrackingEvent
  last_update : PyDateTime
deriving DecidableEq, Repr

/-- The pure part of `scrape_ssw_tracking` after a successful HTTP fetch,
applied to the ordered `p.tdb` paragraph texts: build the events, return the
update when at least one event was extracted, `None` otherwise; an extraction
exception is caught by the surrounding `except` and also yields `None`. -/
def scrapeCore (codes : List OccurrenceCode) (frags : List String)
    (cnpj invoice : String) (now : PyDateTime) : Option ShipmentUpdate :=
  match extractEvents codes (groupTriples frags) with
  | .error _ => none
  | .ok [] => none
  | .ok (e :: es) =>
    some { tracking_code := none
           invoice_number := invoice
           document := cnpj
           carrier := "SSW"
           current_status := e.status
           events := e :: es
           last_update := now }

/-! ### Task wrappers over HTTP outcomes -/

/-- Outcome of the single `client.post` to the carrier site; a non-`ok`
outcome is an exception reaching the task's `except` clause (connect error,
timeout, or `raise_for_status` on a non-2xx response). -/
inductive HttpResult where
  | ok : List String → HttpResult
  | connectTimeout : HttpResult
  | connectError : HttpResult
  | httpStatus : Nat → String → HttpResult
deriving DecidableEq

/-- The `timeout=10.0` carried by every `httpx.Client` in the source. -/
def httpTimeoutSeconds : Nat := 10

/-- `scrape_ssw_tracking`: any exception yields `None` (a soft failure),
a 2xx response is parsed and processed by `scrapeCore`. -/
def scrape_ssw_tracking (res : HttpResult) (codes : List OccurrenceCode)
    (cnpj invoice : String) (now : PyDateTime) : Option ShipmentUpdate :=
  match res with
  | .ok frags => scrapeCore codes frags cnpj invoice now
  | _ => none

/-- The scrape task consumes exactly the first element of the attempt
sequence: the source performs a single `client.post` with no retry
transport. -/
def scrapeWithAttempts (att : Nat → HttpResult) (codes : List OccurrenceCode)
    (cnpj invoice : String) (now : PyDateTime) : Nat × Option ShipmentUpdate :=
  (1, scrape_ssw_tracking (att 0) codes cnpj invoice now)

/-- Outcome of the single `client.post` to `/tracking-updates/shipment`. -/
inductive SubmitHttp where
  | ok2xx : SubmitHttp
  | httpErr : Nat → String → SubmitHttp
  | exc : String → SubmitHttp
deriving DecidableEq

/-- Per-shipment result dictionary. -/
structure SyncResult where
  success : Bool
  invoice_number : String
  error : Option String
deriving DecidableEq, Repr

/-- Python slice `s[:n]`. -/
def takeStr (n : Nat) (s : String) : String := ⟨s.data.take n⟩

/-- `update_tracking_via_api`: success on 2xx, an `HTTPStatusError` is recorded
as `"HTTP <status>: <first 200 chars of the body>"`, any other exception as its
message. -/
def update_tracking_via_api (td : ShipmentUpdate) (res : SubmitHttp) : SyncResult :=
  match res with
  | .ok2xx => { success := true, invoice_number := td.invoice_number, error := none }
  | .httpErr st body =>
    { success := false
      invoice_number := td.invoice_number
      error := some ("HTTP " ++ toString st ++ ": " ++ takeStr 200 body) }
  | .exc m => { success := false, invoice_number := td.invoice_number, error := some m }

/-- The submit task likewise makes exactly one request. -/
def submitWithAttempts (att : Nat → SubmitHttp) (td : ShipmentUpdate) :
    Nat × SyncResult :=
  (1, update_tracking_via_api td (att 0))

/-- Outcome of the single catalog `client.get`. -/
inductive CatalogHttp where
  | ok : List OccurrenceCode → CatalogHttp
  | connectTimeout : CatalogHttp
  | connectError : CatalogHttp
  | httpStatus : Nat → String → CatalogHttp
deriving DecidableEq

/-- The catalog fetch at the top of the flow: any exception becomes the fatal
branch of the flow. -/
def fetchCatalog (r : CatalogHttp) : Except String (List OccurrenceCode) :=
  match r with
  | .ok cs => .ok cs
  | .connectTimeout => .error "ConnectTimeout"
  | .connectError => .error "ConnectError"
  | .httpStatus n body => .error ("HTTP " ++ toString n ++ ": " ++ takeStr 500 body)

/-- The catalog fetch makes exactly one request. -/
def fetchCatalogWithAttempts (att : Nat → CatalogHttp) :
    Nat × Except String (List OccurrenceCode) :=
  (1, fetchCatalog (att 0))

/-! ### The sync orchestrator -/

/-- One entry of the pending-shipments work list. -/
structure PendingShipment where
  cnpj : String
  invoice_number : String
deriving DecidableEq, Repr

/-- The loop body of `sync_ssw_tracking` for one shipment: scrape, then either
submit or record the soft no-data failure. -/
def processShipment (codes : List OccurrenceCode)
    (httpO : PendingShipment → HttpResult) (submitO : ShipmentUpdate → SubmitHttp)
    (now : PyDateTime) (s : PendingShipment) : SyncResult :=
  match scrape_ssw_tracking (httpO s) codes s.cnpj s.invoice_number now with
  | some td => update_tracking_via_api td (submitO td)
  | none =>
    { success := false
      invoice_number := s.invoice_number
      error := some "No tracking data found" }

/-- Is a result counted in the `no_data` bucket of the summary
(`not success and "No tracking data found" in error`)? -/
def isNoData (r : SyncResult) : Bool :=
  !r.success && containsL (r.error.getD "").data "No tracking data found".data

/-- The run totals printed at the end of the flow. -/
structure RunSummary where
  successful : Nat
  no_data : Nat
  failed : Nat
deriving DecidableEq, Repr

/-- The `Summarize` aggregation: `failed` is the remainder of the total. -/
def summarize (results : List SyncResult) : RunSummary :=
  let succ := results.countP (fun r => r.success)
  let nd := results.countP isNoData
  { successful := succ, no_data := nd, failed := results.length - succ - nd }

/-- What one flow run produces: the optional fatal signal (the logged catalog
failure before the early return), the per-shipment results, and the summary
when the loop was reached. -/
structure RunOutcome where
  fatal : Option String
  results : List SyncResult
  summary : Option RunSummary
deriving DecidableEq, Repr

/-- `sync_ssw_tracking`: a catalog-fetch failure aborts with no shipment
processed and no summary; an empty pending list returns early; otherwise every
pending shipment is processed in order and the results are summarized. -/
def sync_ssw_tracking (catalogRes : Except String (List OccurrenceCode))
    (pending : List PendingShipment) (httpO : PendingShipment → HttpResult)
    (submitO : ShipmentUpdate → SubmitHttp) (now : PyDateTime) : RunOutcome :=
  match catalogRes with
  | .error e =>
    { fatal := some ("Failed to fetch occurrence codes: " ++ e)
      results := []
      summary := none }
  | .ok codes =>
    match pending with
    | [] => { fatal := none, results := [], summary := none }
    | p :: ps =>
      let results := (p :: ps).map (processShipment codes httpO submitO now)
      { fatal := none, results := results, summary := some (summarize results) }

/-! ### Concrete catalogs and texts used by witnesses and counterexamples -/

/-- Catalog entry `code 1` (from the project's mock catalog). -/
def mercadoriaEntregue : OccurrenceCode :=
  { code := "1", description := "mercadoria entregue"
    type := some "entrega", process := some "entrega" }

/-- Catalog entry `code 3` (from the project's mock catalog). -/
def mercadoriaDevolvida : OccurrenceCode :=
  { code := "3", description := "mercadoria devolvida ao remetente"
    type := some "entrega", process := some "devolução" }

/-- A small catalog drawn from the project's mock catalog. -/
def mockCatalog : List OccurrenceCode :=
  [mercadoriaEntregue,
   { code := "85", description := "saida para entrega"
     type := some "informativa", process := some "operacional" },
   { code := "80", description := "mercadoria recebida para transporte"
     type := some "informativa", process := some "operacional" }]

/-- A status text whose keywords total more than 100 characters. -/
def cexText : String :=
  "AAAAAAAAAAAAAAAAAAAAAAAAAA BBBBBBBBBBBBBBBBBBBBBBBBBB CCCCCCCCCCCCCCCCCCCCCCCCCC DDDDDDDDDDDDDDDDDDDDDDDDDD X"

/-- A one-character description contained in `cexText` (containment score 100). -/
def cexShort : OccurrenceCode :=
  { code := "S1", description := "x", type := some "informativa", process := some "operacional" }

/-- A long description sharing 104 characters of keywords with `cexText`
without containment in either direction (word-overlap score 104). -/
def cexLong : OccurrenceCode :=
  { code := "L1"
    description := "aaaaaaaaaaaaaaaaaaaaaaaaaa bbbbbbbbbbbbbbbbbbbbbbbbbb cccccccccccccccccccccccccc dddddddddddddddddddddddddd qq"
    type := some "informativa", process := some "operacional" }

/-- Catalog entry `code 37`: a delivery with a carrier-pending type. -/
def entregaComRessalva : OccurrenceCode :=
  { code := "37", description := "entrega realizada com ressalva"
    type := some "pendência transportadora", process := some "entrega" }

/-- Catalog entry `code 99`: a write-off. -/
def ctrcBaixado : OccurrenceCode :=
  { code := "99", description := "ctrc baixado/cancelado"
    type := some "baixa", process := some "geral" }

/-! ### Selection-loop lemmas -/

theorem bestStep_snd_le (up : String) (kw : List String)
    (acc : Option OccurrenceCode × Nat) (c : OccurrenceCode) :
    acc.2 ≤ (bestStep up kw acc c).2 := by
  simp only [bestStep]
  split
  · next h => exact Nat.le_of_lt h
  · exact Nat.le_refl _

theorem bestStep_skip (up : String) (kw : List String)
    (acc : Option OccurrenceCode × Nat) (c : OccurrenceCode)
    (h : matchScore up kw c ≤ acc.2) : bestStep up kw acc c = acc := by
  simp only [bestStep]
  rw [if_neg (Nat.not_lt.mpr h)]

theorem foldl_bestStep_snd_le (up : String) (kw : List String) :
    ∀ (l : List OccurrenceCode) (acc : Option OccurrenceCode × Nat),
    acc.2 ≤ (l.foldl (bestStep up kw) acc).2 := by
  intro l
  induction l with
  | nil => intro acc; exact Nat.le_refl _
  | cons c t ih =>
    intro acc
    simp only [List.foldl_cons]
    exact Nat.le_trans (bestStep_snd_le up kw acc c) (ih (bestStep up kw acc c))

theorem foldl_bestStep_mem_le (up : String) (kw : List String) :
    ∀ (l : List OccurrenceCode) (acc : Option OccurrenceCode × Nat)
      (c : OccurrenceCode), c ∈ l →
    matchScore up kw c ≤ (l.foldl (bestStep up kw) acc).2 := by
  intro l
  induction l with
  | nil => intro acc c h; cases h
  | cons x t ih =>
    intro acc c h
    simp only [List.foldl_cons]
    rcases List.mem_cons.mp h with h1 | h2
    · subst h1
      refine Nat.le_trans ?_ (foldl_bestStep_snd_le up kw t (bestStep up kw acc c))
      simp only [bestStep]
      split
      · exact Nat.le_refl _
      · next h3 => exact Nat.le_of_not_lt h3
    · exact ih _ c h2

theorem foldl_bestStep_inv (up : String) (kw : List String) :
    ∀ (l : List OccurrenceCode) (acc : Option OccurrenceCode × Nat),
    (l.foldl (bestStep up kw) acc) = acc ∨
    ∃ b, b ∈ l ∧ (l.foldl (bestStep up kw) acc).1 = some b ∧
      matchScore up kw b = (l.foldl (bestStep up kw) acc).2 ∧
      acc.2 < (l.foldl (bestStep up kw) acc).2 := by
  intro l
  induction l with
  | nil => intro acc; exact Or.inl rfl
  | cons x t ih =>
    intro acc
    simp only [List.foldl_cons]
    by_cases hx : acc.2 < matchScore up kw x
    · have hs : bestStep up kw acc x = (some x, matchScore up kw x) := by
        simp only [bestStep]
        rw [if_pos hx]
      rcases ih (bestStep up kw acc x) with h | ⟨b, hb, h1, h2, h3⟩
      · right
        refine ⟨x, List.mem_cons_self x t, ?_, ?_, ?_⟩ <;> rw [h, hs]
        exact hx
      · right
        have h4 := bestStep_snd_le up kw acc x
        exact ⟨b, List.mem_cons_of_mem x hb, h1, h2, Nat.lt_of_le_of_lt h4 h3⟩
    · have hs : bestStep up kw acc x = acc := by
        simp only [bestStep]
        rw [if_neg hx]
      rw [hs]
      rcases ih acc with h | ⟨b, hb, h1, h2, h3⟩
      · exact Or.inl h
      · exact Or.inr ⟨b, List.mem_cons_of_mem x hb, h1, h2, h3⟩

theorem mem_insertByLen {a c : OccurrenceCode} :
    ∀ {l : List OccurrenceCode}, a ∈ insertByLen c l ↔ a = c ∨ a ∈ l := by
  intro l
  induction l with
  | nil => simp [insertByLen]
  | cons x xs ih =>
    simp only [insertByLen]
    split
    · simp [List.mem_cons]
    · simp only [List.mem_cons, ih]
      tauto

theorem mem_sortByDescLen {a : OccurrenceCode} :
    ∀ {l : List OccurrenceCode}, a ∈ sortByDescLen l ↔ a ∈ l := by
  intro l
  induction l with
  | nil => simp [sortByDescLen]
  | cons c cs ih => simp [sortByDescLen, mem_insertByLen, ih, List.mem_cons]

/-! ### Claim C1 -/

/-- C1: the Status Mapper evaluates its rules in the stated order with
`process` checked before `type`: `process == "entrega"` (case-insensitively)
maps to `delivered` regardless of `type` (including
`type = "pendência transportadora"`), `finalizadora` to `delivered`,
`devolução` to `returned`; then, when no process rule fired, `type == "baixa"`
maps to `cancelled` and `type == "préentrega"` to `out_for_delivery`; then
`process == "reentrega"` to `failed_delivery`, `process == "agendamento"` to
`awaiting_pickup`, a `type` containing `"pendência"` to `held`; and when no
code matched or the classification attributes are absent, the status is
`in_transit`. -/
theorem C1_status_mapper :
    (∀ c : OccurrenceCode, procLower c = "entrega" → mapStatus (some c) = "delivered")
    ∧ (∀ c : OccurrenceCode, procLower c = "finalizadora" → mapStatus (some c) = "delivered")
    ∧ (∀ c : OccurrenceCode, procLower c = "devolução" → mapStatus (some c) = "returned")
    ∧ (∀ c : OccurrenceCode, procLower c ≠ "entrega" → procLower c ≠ "finalizadora" →
        procLower c ≠ "devolução" → typeLower c = "baixa" →
        mapStatus (some c) = "cancelled")
    ∧ (∀ c : OccurrenceCode, procLower c ≠ "entrega" → procLower c ≠ "finalizadora" →
        procLower c ≠ "devolução" → typeLower c = "préentrega" →
        mapStatus (some c) = "out_for_delivery")
    ∧ (∀ c : OccurrenceCode, typeLower c ≠ "baixa" → typeLower c ≠ "préentrega" →
        procLower c = "reentrega" → mapStatus (some c) = "failed_delivery")
    ∧ (∀ c : OccurrenceCode, typeLower c ≠ "baixa" → typeLower c ≠ "préentrega" →
        procLower c = "agendamento" → mapStatus (some c) = "awaiting_pickup")
    ∧ (∀ c : OccurrenceCode, procLower c ≠ "entrega" → procLower c ≠ "finalizadora" →
        procLower c ≠ "devolução" → procLower c ≠ "reentrega" →
        procLower c ≠ "agendamento" → typeLower c ≠ "baixa" →
        typeLower c ≠ "préentrega" →
        containsL (typeLower c).data "pendência".data = true →
        mapStatus (some c) = "held")
    ∧ mapStatus none = "in_transit"
    ∧ (∀ c : OccurrenceCode, c.type = none → c.process = none →
        mapStatus (some c) = "in_transit")
    ∧ mapStatus (some entregaComRessalva) = "delivered" := by
  refine ⟨?_, ?_, ?_, ?_, ?_, ?_, ?_, ?_, rfl, ?_, by decide⟩
  · intro c h
    have e : mapStatus (some c) = mapStatusTP (typeLower c) (procLower c) := rfl
    rw [e, h]
    rfl
  · intro c h
    have e : mapStatus (some c) = mapStatusTP (typeLower c) (procLower c) := rfl
    rw [e, h]
    rfl
  · intro c h
    have e : mapStatus (some c) = mapStatusTP (typeLower c) (procLower c) := rfl
    rw [e, h]
    rfl
  · intro c h1 h2 h3 h4
    have e : mapStatus (some c) = mapStatusTP (typeLower c) (procLower c) := rfl
    rw [e, h4]
    unfold mapStatusTP
    rw [if_neg h1, if_neg h2, if_neg h3]
    rfl
  · intro c h1 h2 h3 h4
    have e : mapStatus (some c) = mapStatusTP (typeLower c) (procLower c) := rfl
    rw [e, h4]
    unfold mapStatusTP
    rw [if_neg h1, if_neg h2, if_neg h3]
    rfl
  · intro c h1 h2 h3
    have e : mapStatus (some c) = mapStatusTP (typeLower c) (procLower c) := rfl
    rw [e, h3]
    unfold mapStatusTP
    rw [if_neg (show ¬(("reentrega" : String) = "entrega") from by decide),
      if_neg (show ¬(("reentrega" : String) = "finalizadora") from by decide),
      if_neg (show ¬(("reentrega" : String) = "devolução") from by decide),
      if_neg h1, if_neg h2]
    rfl
  · intro c h1 h2 h3
    have e : mapStatus (some c) = mapStatusTP (typeLower c) (procLower c) := rfl
    rw [e, h3]
    unfold mapStatusTP
    rw [if_neg (show ¬(("agendamento" : String) = "entrega") from by decide),
      if_neg (show ¬(("agendamento" : String) = "finalizadora") from by decide),
      if_neg (show ¬(("agendamento" : String) = "devolução") from by decide),
      if_neg h1, if_neg h2]
    rfl
  · intro c h1 h2 h3 h4 h5 h6 h7 h8
    have e : mapStatus (some c) = mapStatusTP (typeLower c) (procLower c) := rfl
    rw [e]
    unfold mapStatusTP
    rw [if_neg h1, if_neg h2, if_neg h3, if_neg h6, if_neg h7, if_neg h4,
      if_neg h5, if_pos h8]
  · intro c h1 h2
    have e : mapStatus (some c)
        = mapStatusTP (pyLower (c.type.getD "")) (pyLower (c.process.getD "")) := rfl
    rw [e, h1, h2]
    rfl

/-- Witness for C1: the `baixa` rule fires on a concrete catalog entry whose
process falls through the three process rules. -/
theorem C1_status_mapper_witness :
    mapStatus (some ctrcBaixado) = "cancelled" :=
  C1_status_mapper.2.2.2.1 _ (by decide) (by decide) (by decide) (by decide)

/-! ### Claim C2 -/

/-- C2 counterexample: in the two-entry catalog `[cexShort, cexLong]` the
description of `cexShort` (`"x"`, containment score 100) is a substring of
the cleaned uppercased `cexText`, while `cexLong` matches by word overlap
only (score 104, no containment in either direction) — yet the matcher
returns `cexLong`, so an exact-containment match does not always outrank a
word-overlap-only match. -/
theorem C2_exact_containment_counterexample :
    (findBestMatch [cexShort, cexLong] cexText).1 = some cexLong ∧
    cexLong ≠ cexShort ∧
    containsL (cleanUpper cexText).data (pyUpperStr cexShort.description).data = true ∧
    containsL (cleanUpper cexText).data (pyUpperStr cexLong.description).data = false ∧
    containsL (pyUpperStr cexLong.description).data (cleanUpper cexText).data = false := by
  refine ⟨by decide, by decide, by decide, by decide, by decide⟩

/-- C2 (amended): an exact-containment match (scored 100 × the length of the
contained string) outranks a word-overlap-only match whenever the overlap
score is below that bound — the matcher never returns the overlap entry; the
bound can only be exceeded when the shared keywords total more than
100 × the contained length characters.  On the spec's example the matcher
picks `"mercadoria entregue"` for the text
`"MERCADORIA ENTREGUE  (SSW WebAPI)"`. -/
theorem C2_exact_containment_outranks :
    (∀ (codes : List OccurrenceCode) (txt : String) (cA cB : OccurrenceCode),
      cA ∈ codes →
      containsL (cleanUpper txt).data (pyUpperStr cA.description).data = true →
      containsL (cleanUpper txt).data (pyUpperStr cB.description).data = false →
      containsL (pyUpperStr cB.description).data (cleanUpper txt).data = false →
      overlapScore (keywordsOf (cleanUpper txt)) cB
        < 100 * (pyUpperStr cA.description).length →
      (findBestMatch codes txt).1 ≠ some cB)
    ∧ (findBestMatch mockCatalog "MERCADORIA ENTREGUE  (SSW WebAPI)").1
        = some mercadoriaEntregue := by
  constructor
  · intro codes txt cA cB hmem hA hB1 hB2 hlt hEq
    have hscA : matchScore (cleanUpper txt) (keywordsOf (cleanUpper txt)) cA
        = 100 * (pyUpperStr cA.description).length := by
      simp only [matchScore]
      rw [if_pos hA]
    have hscB : matchScore (cleanUpper txt) (keywordsOf (cleanUpper txt)) cB
        = overlapScore (keywordsOf (cleanUpper txt)) cB := by
      simp only [matchScore, hB1, hB2]
      rfl
    have hle := foldl_bestStep_mem_le (cleanUpper txt) (keywordsOf (cleanUpper txt))
      (sortByDescLen codes) (none, 0) cA (mem_sortByDescLen.mpr hmem)
    unfold findBestMatch at hEq
    rcases foldl_bestStep_inv (cleanUpper txt) (keywordsOf (cleanUpper txt))
        (sortByDescLen codes) (none, 0) with h0 | ⟨b, hb, hb1, hb2, hb3⟩
    · rw [h0] at hEq
      exact Option.noConfusion hEq
    · rw [hb1] at hEq
      have hbc : b = cB := Option.some.inj hEq
      subst hbc
      rw [hscA] at hle
      rw [hscB] at hb2
      omega
  · decide

/-- Witness for the amended C2 theorem: for the text
`"MERCADORIA ENTREGUE"`, the entry `mercadoria devolvida ao remetente`
(overlap score 10, no containment) is never returned while the contained
description `mercadoria entregue` (score 1900) is in the catalog. -/
theorem C2_exact_containment_outranks_witness :
    (findBestMatch [mercadoriaEntregue, mercadoriaDevolvida]
      "MERCADORIA ENTREGUE").1 ≠ some mercadoriaDevolvida :=
  C2_exact_containment_outranks.1 [mercadoriaEntregue, mercadoriaDevolvida]
    "MERCADORIA ENTREGUE" mercadoriaEntregue mercadoriaDevolvida
    (by decide) (by decide) (by decide) (by decide) (by decide)

/-! ### Claim C3 -/

/-- C3: the Code Matcher iterates the catalog sorted by description length
descending, a candidate replaces the running best only with a strictly higher
score (an equal score never replaces it), a catalog in which every entry
scores zero yields no match, and a returned entry always is a catalog member
with strictly positive score equal to the final best score. -/
theorem C3_matcher_selection :
    (∀ (codes : List OccurrenceCode) (txt : String),
      findBestMatch codes txt =
        (sortByDescLen codes).foldl
          (bestStep (cleanUpper txt) (keywordsOf (cleanUpper txt))) (none, 0))
    ∧ (∀ (up : String) (kw : List String) (acc : Option OccurrenceCode × Nat)
        (c : OccurrenceCode), matchScore up kw c ≤ acc.2 →
        bestStep up kw acc c = acc)
    ∧ (∀ (codes : List OccurrenceCode) (txt : String),
        (∀ c ∈ codes,
          matchScore (cleanUpper txt) (keywordsOf (cleanUpper txt)) c = 0) →
        (findBestMatch codes txt).1 = none)
    ∧ (∀ (codes : List OccurrenceCode) (txt : String) (c : OccurrenceCode),
        (findBestMatch codes txt).1 = some c →
        c ∈ codes ∧
        0 < matchScore (cleanUpper txt) (keywordsOf (cleanUpper txt)) c ∧
        matchScore (cleanUpper txt) (keywordsOf (cleanUpper txt)) c
          = (findBestMatch codes txt).2) := by
  refine ⟨fun codes txt => rfl, bestStep_skip, ?_, ?_⟩
  · intro codes txt hall
    unfold findBestMatch
    rcases foldl_bestStep_inv (cleanUpper txt) (keywordsOf (cleanUpper txt))
        (sortByDescLen codes) (none, 0) with h0 | ⟨b, hb, hb1, hb2, hb3⟩
    · rw [h0]
    · exfalso
      have hz := hall b (mem_sortByDescLen.mp hb)
      rw [hz] at hb2
      omega
  · intro codes txt c hc
    unfold findBestMatch at hc ⊢
    rcases foldl_bestStep_inv (cleanUpper txt) (keywordsOf (cleanUpper txt))
        (sortByDescLen codes) (none, 0) with h0 | ⟨b, hb, hb1, hb2, hb3⟩
    · rw [h0] at hc
      exact Option.noConfusion hc
    · rw [hb1] at hc
      have hbc : b = c := Option.some.inj hc
      subst hbc
      exact ⟨mem_sortByDescLen.mp hb, by omega, hb2⟩

/-- Witness for C3: on a catalog whose single entry shares no keyword with
the text `"ZZZ"`, the matcher returns no entry. -/
theorem C3_matcher_selection_witness :
    (findBestMatch [ctrcBaixado] "ZZZ").1 = none :=
  C3_matcher_selection.2.2.1 [ctrcBaixado] "ZZZ" (by decide)

/-! ### Summary-count lemmas -/

theorem countP_disjoint_le {α : Type} (p q : α → Bool)
    (h : ∀ r, p r = true → q r = false) :
    ∀ l : List α, l.countP p + l.countP q ≤ l.length := by
  intro l
  induction l with
  | nil => simp
  | cons r t ih =>
    simp only [List.countP_cons, List.length_cons]
    cases hpr : p r with
    | true =>
      have hq := h r hpr
      simp [hpr, hq]
      omega
    | false =>
      cases hqr : q r with
      | true =>
        simp [hpr, hqr]
        omega
      | false =>
        simp [hpr, hqr]
        omega

theorem getElem?_map_eq {α β : Type} (f : α → β) :
    ∀ (l : List α) (i : Nat), (l.map f)[i]? = (l[i]?).map f := by
  intro l
  induction l with
  | nil => intro i; simp
  | cons x t ih =>
    intro i
    cases i with
    | zero => simp
    | succ j => simp

theorem summarize_total (results : List SyncResult) :
    (summarize results).successful + (summarize results).no_data
      + (summarize results).failed = results.length := by
  have hd : ∀ r : SyncResult, (fun r : SyncResult => r.success) r = true →
      isNoData r = false := by
    intro r hr
    simp only [isNoData]
    simp only at hr
    rw [hr]
    rfl
  have hle := countP_disjoint_le _ _ hd results
  simp only [summarize]
  omega

/-! ### Claim C4 -/

/-- C4: with a fetched catalog and a nonempty pending list, the loop produces
one result per shipment; result `i` depends only on shipment `i` (so one
shipment's failure leaves the other `N − 1` outcomes unaffected); a scrape
failure or zero extracted events yields exactly the
`{success := false, error := "No tracking data found"}` soft-failure result; a
submission HTTP failure records the HTTP status with the response body
truncated to 200 characters while a submission success records
`success := true`; and the run always ends with a summary whose successful,
no-data and other-failed counts sum to the total processed. -/
theorem C4_partial_failure_isolation :
    ∀ (codes : List OccurrenceCode) (pending : List PendingShipment)
      (httpO : PendingShipment → HttpResult) (submitO : ShipmentUpdate → SubmitHttp)
      (now : PyDateTime), pending ≠ [] →
    ((sync_ssw_tracking (.ok codes) pending httpO submitO now).results.length
        = pending.length)
    ∧ (∀ i : Nat,
        (sync_ssw_tracking (.ok codes) pending httpO submitO now).results[i]?
          = (pending[i]?).map (processShipment codes httpO submitO now))
    ∧ (∀ s : PendingShipment,
        scrape_ssw_tracking (httpO s) codes s.cnpj s.invoice_number now = none →
        processShipment codes httpO submitO now s =
          ⟨false, s.invoice_number, some "No tracking data found"⟩)
    ∧ (∀ (td : ShipmentUpdate) (st : Nat) (body : String),
        submitO td = .httpErr st body →
        update_tracking_via_api td (submitO td) =
          ⟨false, td.invoice_number,
            some ("HTTP " ++ toString st ++ ": " ++ takeStr 200 body)⟩)
    ∧ (∀ td : ShipmentUpdate, submitO td = .ok2xx →
        update_tracking_via_api td (submitO td) = ⟨true, td.invoice_number, none⟩)
    ∧ ((sync_ssw_tracking (.ok codes) pending httpO submitO now).summary
        = some (summarize
            ((sync_ssw_tracking (.ok codes) pending httpO submitO now).results)))
    ∧ (∀ rs : List SyncResult,
        (summarize rs).successful + (summarize rs).no_data + (summarize rs).failed
          = rs.length) := by
  intro codes pending httpO submitO now hne
  cases pending with
  | nil => exact absurd rfl hne
  | cons p ps =>
    have hrun : sync_ssw_tracking (.ok codes) (p :: ps) httpO submitO now =
        ⟨none, (p :: ps).map (processShipment codes httpO submitO now),
          some (summarize ((p :: ps).map (processShipment codes httpO submitO now)))⟩ :=
      rfl
    refine ⟨?_, ?_, ?_, ?_, ?_, ?_, summarize_total⟩
    · rw [hrun]
      simp
    · intro i
      rw [hrun]
      exact getElem?_map_eq (processShipment codes httpO submitO now) (p :: ps) i
    · intro s h
      simp only [processShipment, h]
    · intro td st body h
      rw [h]
      rfl
    · intro td h
      rw [h]
      rfl
    · rw [hrun]

/-- Witness for C4: a single pending shipment whose scrape times out yields a
one-element results list. -/
theorem C4_partial_failure_isolation_witness :
    (sync_ssw_tracking (.ok []) [⟨"c", "i"⟩] (fun _ => .connectTimeout)
      (fun _ => .ok2xx) ⟨2025, 1, 1, 0, 0⟩).results.length = 1 := by
  have h := C4_partial_failure_isolation [] [⟨"c", "i"⟩] (fun _ => .connectTimeout)
    (fun _ => .ok2xx) ⟨2025, 1, 1, 0, 0⟩ (by simp)
  simpa using h.1

/-! ### Claim C5 -/

/-- C5: a catalog-fetch failure is fatal: the run records the fatal signal,
produces zero shipment results (no shipment is scraped or submitted), and
never produces a summary. -/
theorem C5_catalog_failure_fatal :
    ∀ (e : String) (pending : List PendingShipment)
      (httpO : PendingShipment → HttpResult) (submitO : ShipmentUpdate → SubmitHttp)
      (now : PyDateTime),
    (sync_ssw_tracking (.error e) pending httpO submitO now).fatal
        = some ("Failed to fetch occurrence codes: " ++ e)
    ∧ (sync_ssw_tracking (.error e) pending httpO submitO now).results = []
    ∧ (sync_ssw_tracking (.error e) pending httpO submitO now).summary = none := by
  intro e pending httpO submitO now
  exact ⟨rfl, rfl, rfl⟩

/-! ### Extractor lemmas and claims C6, C7, C10 -/

theorem processTriple_noStamp (codes : List OccurrenceCode) (u s st : String)
    (h : findDate s.data = none ∨ findTime s.data = none) :
    processTriple codes u s st = .noStamp := by
  unfold processTriple
  rcases h with h | h
  · cases hft : findTime s.data with
    | none => rw [h]
    | some tm => rw [h]
  · cases hfd : findDate s.data with
    | none => rw [h]
    | some d => rw [h]

/-- Three concrete paragraph texts forming one well-formed triple. -/
def w6frags : List String := ["0001", "SAO PAULO / SP01/01/25\n10:00", "SAIU"]

/-- The update `scrapeCore` assembles from `w6frags` with an empty catalog. -/
def w6update : ShipmentUpdate :=
  { tracking_code := none
    invoice_number := "i"
    document := "c"
    carrier := "SSW"
    current_status := "in_transit"
    events := [⟨"", "in_transit", "", some "SAO PAULO / SP", some "0001",
      ⟨2025, 1, 1, 10, 0⟩⟩]
    last_update := ⟨2025, 1, 2, 0, 0⟩ }

/-- C6: every assembled `ShipmentUpdate` has a nonempty events list whose head
status is its `current_status`; when no event was extracted, no update is
assembled at all (the task returns `None`), so the "pending" default in the
dead `if events` guard is never reached. -/
theorem C6_current_status :
    (∀ (codes : List OccurrenceCode) (frags : List String) (cnpj invoice : String)
      (now : PyDateTime) (u : ShipmentUpdate),
      scrapeCore codes frags cnpj invoice now = some u →
      ∃ e es, u.events = e :: es ∧ u.current_status = e.status)
    ∧ (∀ (codes : List OccurrenceCode) (frags : List String) (cnpj invoice : String)
      (now : PyDateTime),
      extractEvents codes (groupTriples frags) = .ok [] →
      scrapeCore codes frags cnpj invoice now = none) := by
  constructor
  · intro codes frags cnpj invoice now u h
    unfold scrapeCore at h
    split at h
    · exact Option.noConfusion h
    · exact Option.noConfusion h
    · next e es heq =>
      have hu := Option.some.inj h
      subst hu
      exact ⟨e, es, rfl, rfl⟩
  · intro codes frags cnpj invoice now h
    unfold scrapeCore
    rw [h]

/-- Witness for C6: on `w6frags` the assembled update has a one-event list
headed by the event that provides `current_status`. -/
theorem C6_current_status_witness :
    ∃ e es, w6update.events = e :: es ∧ w6update.current_status = e.status :=
  C6_current_status.1 [] w6frags "c" "i" ⟨2025, 1, 2, 0, 0⟩ w6update (by decide)

/-- C7: the extractor groups the flat fragment sequence into consecutive
triples, discarding any trailing group of fewer than three fragments; a triple
whose location+time fragment lacks the date or the time pattern is skipped
while the remaining triples are still processed; and on a successful run the
emitted events are exactly the surviving triples' events in the original
document order (a `filterMap`, with no re-sorting). -/
theorem C7_extractor_grouping :
    (∀ (a b c : String) (rest : List String),
      groupTriples (a :: b :: c :: rest) = (a, b, c) :: groupTriples rest)
    ∧ groupTriples [] = []
    ∧ (∀ a : String, groupTriples [a] = [])
    ∧ (∀ a b : String, groupTriples [a, b] = [])
    ∧ (∀ (codes : List OccurrenceCode) (u s st : String)
        (ts : List (String × String × String)),
        findDate s.data = none ∨ findTime s.data = none →
        extractEvents codes ((u, s, st) :: ts) = extractEvents codes ts)
    ∧ (∀ (codes : List OccurrenceCode) (ts : List (String × String × String))
        (evs : List TrackingEvent),
        extractEvents codes ts = .ok evs →
        evs = ts.filterMap (fun t =>
          match processTriple codes t.1 t.2.1 t.2.2 with
          | .ev e => some e
          | _ => none)) := by
  refine ⟨fun a b c rest => rfl, rfl, fun a => rfl, fun a b => rfl, ?_, ?_⟩
  · intro codes u s st ts h
    have hn := processTriple_noStamp codes u s st h
    simp only [extractEvents, hn]
  · intro codes ts
    induction ts with
    | nil =>
      intro evs h
      simp only [extractEvents] at h
      have := Except.ok.inj h
      subst this
      rfl
    | cons t ts ih =>
      intro evs h
      simp only [extractEvents] at h
      cases hp : processTriple codes t.1 t.2.1 t.2.2 with
      | noStamp =>
        rw [hp] at h
        have he := ih evs h
        simp only [List.filterMap_cons, hp]
        exact he
      | badStamp =>
        rw [hp] at h
        exact Except.noConfusion h
      | ev e =>
        rw [hp] at h
        cases hrec : extractEvents codes ts with
        | error u2 =>
          rw [hrec] at h
          exact Except.noConfusion h
        | ok es =>
          rw [hrec] at h
          have hcons := Except.ok.inj h
          subst hcons
          simp only [List.filterMap_cons, hp]
          rw [ih es hrec]

/-- A triple list with one well-formed triple followed by one skipped triple
(no date pattern). -/
def w7triples : List (String × String × String) :=
  [("0001", "SAO PAULO / SP01/01/25\n10:00", "SAIU"), ("0002", "nodate", "X")]

/-- Witness for C7: the surviving events of `w7triples` are exactly the
`filterMap` of the triples in order. -/
theorem C7_extractor_grouping_witness :
    [(⟨"", "in_transit", "", some "SAO PAULO / SP", some "0001",
        ⟨2025, 1, 1, 10, 0⟩⟩ : TrackingEvent)]
      = w7triples.filterMap (fun t =>
          match processTriple [] t.1 t.2.1 t.2.2 with
          | .ev e => some e
          | _ => none) :=
  C7_extractor_grouping.2.2.2.2.2 [] w7triples _ rfl

/-- C10: a triple whose fragment carries date and time tokens that match the
patterns but fail calendar validation (such as `32/13/25`) makes the whole
extraction raise: `extractEvents` errors out and the shipment yields no
tracking data, discarding even its other well-formed events. -/
theorem C10_invalid_calendar_aborts :
    (∀ (codes : List OccurrenceCode) (ts : List (String × String × String)),
      (∃ t ∈ ts, processTriple codes t.1 t.2.1 t.2.2 = .badStamp) →
      extractEvents codes ts = .error ())
    ∧ (∀ (codes : List OccurrenceCode) (frags : List String) (cnpj invoice : String)
        (now : PyDateTime),
        extractEvents codes (groupTriples frags) = .error () →
        scrapeCore codes frags cnpj invoice now = none)
    ∧ processTriple [] "0001" "RIO32/13/25 11:00" "BAD" = .badStamp := by
  refine ⟨?_, ?_, by decide⟩
  · intro codes ts
    induction ts with
    | nil =>
      intro h
      rcases h with ⟨t, hmem, _⟩
      cases hmem
    | cons x ts ih =>
      intro h
      rcases h with ⟨t, hmem, hbad⟩
      rcases List.mem_cons.mp hmem with rfl | hm
      · simp only [extractEvents, hbad]
      · have he := ih ⟨t, hm, hbad⟩
        simp only [extractEvents]
        cases hp : processTriple codes x.1 x.2.1 x.2.2 with
        | noStamp => exact he
        | badStamp => rfl
        | ev e => rw [he]
  · intro codes frags cnpj invoice now h
    unfold scrapeCore
    rw [h]

/-- Six paragraph texts: a well-formed triple followed by a triple whose
fragment contains the invalid calendar date `32/13/25`. -/
def w10frags : List String :=
  ["0001", "SAO PAULO / SP01/01/25\n10:00", "OK", "0002", "RIO32/13/25 11:00", "BAD"]

/-- Witness for C10: on `w10frags` the whole shipment yields no tracking data
although its first triple is well-formed. -/
theorem C10_invalid_calendar_aborts_witness :
    scrapeCore [] w10frags "c" "i" ⟨2025, 1, 2, 0, 0⟩ = none :=
  C10_invalid_calendar_aborts.2.1 [] w10frags "c" "i" ⟨2025, 1, 2, 0, 0⟩
    (C10_invalid_calendar_aborts.1 [] (groupTriples w10frags)
      ⟨("0002", "RIO32/13/25 11:00", "BAD"), by decide, by decide⟩)

/-! ### Location-extraction lemmas and claim C8 -/

theorem scanFirst_none (p : List Char → Option String) :
    ∀ l : List Char, scanFirst p l = none → ∀ k, p (l.drop k) = none := by
  intro l
  induction l with
  | nil =>
    intro h k
    simp only [scanFirst] at h
    rw [List.drop_nil]
    exact h
  | cons c t ih =>
    intro h k
    simp only [scanFirst] at h
    cases hp : p (c :: t) with
    | some r =>
      rw [hp] at h
      exact Option.noConfusion h
    | none =>
      rw [hp] at h
      cases k with
      | zero => exact hp
      | succ k2 => exact ih h k2

theorem locAux_none (rest : List Char) :
    ∀ pre : List Char, (∀ k, dateAt (rest.drop k) = false) →
    locAux pre rest = none := by
  induction rest with
  | nil => intro pre _; rfl
  | cons c cs ih =>
    intro pre h
    have h0 : dateAt (c :: cs) = false := h 0
    simp only [locAux]
    rw [if_neg (by simp [h0])]
    split
    · rfl
    · exact ih (c :: pre) (fun k => h (k + 1))

theorem extractLocRaw_none (l : List Char) (h : ∀ k, dateAt (l.drop k) = false) :
    extractLocRaw l = none := by
  cases l with
  | nil => rfl
  | cons c cs =>
    simp only [extractLocRaw]
    split
    · rfl
    · exact locAux_none cs [c] (fun k => h (k + 1))

theorem locAux_spec :
    ∀ (rest pre : List Char) (p : Nat),
    dateAt (rest.drop p) = true →
    (∀ q, q < p → dateAt (rest.drop q) = false) →
    (∀ ch ∈ rest.take p, ch ≠ '\n') →
    locAux pre rest = some (pre.reverse ++ rest.take p) := by
  intro rest
  induction rest with
  | nil =>
    intro pre p h1 _ _
    rw [List.drop_nil] at h1
    exact absurd h1 (by decide)
  | cons c cs ih =>
    intro pre p h1 h2 h3
    cases p with
    | zero =>
      have h0 : dateAt (c :: cs) = true := h1
      simp only [locAux]
      rw [if_pos h0]
      simp
    | succ p2 =>
      have h0 : dateAt (c :: cs) = false := h2 0 (Nat.succ_pos p2)
      have hc : c ≠ '\n' := h3 c (List.mem_cons_self c (cs.take p2))
      simp only [locAux]
      rw [if_neg (by simp [h0]), if_neg hc]
      have hrec := ih (c :: pre) p2 h1 (fun q hq => h2 (q + 1) (by omega))
        (fun ch hch => h3 ch (List.mem_cons_of_mem c hch))
      rw [hrec]
      simp

/-- C8: the extracted location of an event is the text of the combined
location+time fragment preceding the first embedded `DD/MM/YY` pattern,
trimmed and stripped of a trailing separator; on
`"RIO DE JANEIRO / RJ18/11/25\n16:35"` it is exactly
`"RIO DE JANEIRO / RJ"`; and when the date pattern is absent the location is
null and the triple is discarded. -/
theorem C8_location_extraction :
    extractLocation "RIO DE JANEIRO / RJ18/11/25\n16:35" = some "RIO DE JANEIRO / RJ"
    ∧ (∀ s : String, findDate s.data = none → extractLocation s = none)
    ∧ (∀ (codes : List OccurrenceCode) (u s st : String),
        findDate s.data = none → processTriple codes u s st = .noStamp)
    ∧ (∀ (s : String) (p : Nat), 1 ≤ p →
        dateAt (s.data.drop p) = true →
        (∀ q, 1 ≤ q → q < p → dateAt (s.data.drop q) = false) →
        (∀ ch ∈ s.data.take p, ch ≠ '\n') →
        extractLocation s = some ⟨cleanLoc (s.data.take p)⟩) := by
  refine ⟨by decide, ?_, ?_, ?_⟩
  · intro s h
    have hall : ∀ k, dateAt (s.data.drop k) = false := by
      intro k
      have hk := scanFirst_none dateHere s.data h k
      cases hd : dateAt (s.data.drop k) with
      | false => rfl
      | true =>
        exfalso
        simp [dateHere, hd] at hk
    unfold extractLocation
    rw [extractLocRaw_none s.data hall]
    rfl
  · intro codes u s st h
    exact processTriple_noStamp codes u s st (Or.inl h)
  · intro s p hp h1 h2 h3
    obtain ⟨p2, rfl⟩ : ∃ p2, p = p2 + 1 := ⟨p - 1, by omega⟩
    cases hl : s.data with
    | nil =>
      exfalso
      rw [hl, List.drop_nil] at h1
      exact absurd h1 (by decide)
    | cons c cs =>
      rw [hl] at h1 h2 h3
      have hc : c ≠ '\n' := h3 c (List.mem_cons_self c (cs.take p2))
      unfold extractLocation
      rw [hl]
      simp only [extractLocRaw]
      rw [if_neg hc]
      rw [locAux_spec cs [c] p2 h1
        (fun q hq => h2 (q + 1) (by omega) (by omega))
        (fun ch hch => h3 ch (List.mem_cons_of_mem c hch))]
      rfl

/-- Witness for C8: the first date pattern of `"AB01/02/25 10:30"` starts at
position 2, so the location is the cleanup of the two-character prefix. -/
theorem C8_location_extraction_witness :
    extractLocation "AB01/02/25 10:30" = some ⟨cleanLoc ("AB01/02/25 10:30".data.take 2)⟩ :=
  C8_location_extraction.2.2.2 "AB01/02/25 10:30" 2 (by decide) (by decide)
    (by
      intro q hq1 hq2
      have hq : q = 1 := by omega
      subst hq
      decide)
    (by decide)

/-! ### Claim C9 -/

/-- The attempt sequence of the C9 counterexample: the first request times
out, any retry would succeed with the well-formed page `w6frags`. -/
def cexAttempts : Nat → HttpResult :=
  fun n => if n = 0 then .connectTimeout else .ok w6frags

/-- C9 counterexample: when the first carrier request times out, the scrape
task performs exactly one request and immediately records the soft failure —
it is not retried, even though a retry (attempt 1) would have produced
tracking data. -/
theorem C9_no_retry_counterexample :
    (scrapeWithAttempts cexAttempts [] "c" "i" ⟨2025, 1, 2, 0, 0⟩).1 = 1
    ∧ (scrapeWithAttempts cexAttempts [] "c" "i" ⟨2025, 1, 2, 0, 0⟩).2 = none
    ∧ scrape_ssw_tracking (cexAttempts 1) [] "c" "i" ⟨2025, 1, 2, 0, 0⟩ ≠ none :=
  ⟨rfl, rfl, by decide⟩

/-- C9 (amended): no HTTP call is retried: the carrier scrape, the catalog
fetch and the submission each perform exactly one attempt under the bounded
10-second client timeout; a transient connect/timeout failure of the scrape is
immediately a soft failure (`None`) for that shipment, a transient failure of
the catalog fetch is immediately fatal, and 4xx application errors are
likewise never retried. -/
theorem C9_single_attempt :
    (∀ (att : Nat → HttpResult) (codes : List OccurrenceCode)
      (cnpj invoice : String) (now : PyDateTime),
      (scrapeWithAttempts att codes cnpj invoice now).1 = 1)
    ∧ (∀ (att : Nat → HttpResult) (codes : List OccurrenceCode)
        (cnpj invoice : String) (now : PyDateTime),
        att 0 = .connectTimeout ∨ att 0 = .connectError →
        (scrapeWithAttempts att codes cnpj invoice now).2 = none)
    ∧ (∀ (att : Nat → SubmitHttp) (td : ShipmentUpdate),
        (submitWithAttempts att td).1 = 1)
    ∧ (∀ (att : Nat → SubmitHttp) (td : ShipmentUpdate) (st : Nat) (body : String),
        att 0 = .httpErr st body → ((submitWithAttempts att td).2).success = false)
    ∧ (∀ att : Nat → CatalogHttp, (fetchCatalogWithAttempts att).1 = 1)
    ∧ (∀ att : Nat → CatalogHttp, att 0 = .connectTimeout →
        (fetchCatalogWithAttempts att).2 = .error "ConnectTimeout")
    ∧ httpTimeoutSeconds = 10 := by
  refine ⟨fun att codes cnpj invoice now => rfl, ?_, fun att td => rfl, ?_,
    fun att => rfl, ?_, rfl⟩
  · intro att codes cnpj invoice now h
    rcases h with h | h <;> simp [scrapeWithAttempts, scrape_ssw_tracking, h]
  · intro att td st body h
    simp [submitWithAttempts, update_tracking_via_api, h]
  · intro att h
    simp [fetchCatalogWithAttempts, fetchCatalog, h]

/-- Witness for C9: a timed-out first attempt yields the soft failure for the
shipment with no retry consulted. -/
theorem C9_single_attempt_witness :
    (scrapeWithAttempts cexAttempts mockCatalog "c" "i" ⟨2025, 1, 1, 0, 0⟩).2 = none :=
  C9_single_attempt.2.1 cexAttempts mockCatalog "c" "i" ⟨2025, 1, 1, 0, 0⟩
    (Or.inl rfl)

end ShipTracker
